import Mathlib

/-!
Verification development for `scrap_table.py`: a scraper that fetches seismic
events from an ArcGIS endpoint, normalizes each feature's heterogeneous fields
into a canonical item, and replaces the contents of a DynamoDB table with the
fresh batch, returning an aggregated run result.

The Python program is shallowly embedded:
* Python scalar values (`None`, `bool`, `int`, `float`, `str`,
  `decimal.Decimal`) become `PyScalar`.  A finite Python float is identified
  with the exact decimal value of its shortest round-trip `repr`, carried as a
  mantissa/exponent pair, which is faithful for everything the program does
  with floats (`Decimal(str(v))`, truthiness, JSON serializability); non-finite
  floats are outside the model.
* `decimal.Decimal` becomes `Dec`: a mantissa/exponent pair (the constructor
  preserves the written exponent, as CPython's does) plus infinities and NaN.
* Upstream attribute/geometry mappings and normalized items become association
  lists `List (String × PyVal)`; a non-scalar JSON value (`dict`/`list`) is
  modelled one level deep (`PyVal.obj` / `PyVal.arr` over scalars), which
  covers every use the program makes of such values (`str(v)`, truthiness).
* External effects (HTTP fetch, DynamoDB scan/delete/put, `uuid4`) are oracle
  inputs collected in an `Env`; `lambda_handler` returns the response it would
  produce (`Except.error` meaning an uncaught Python exception) together with
  the chronological trace of store operations it issued.
* `json.dumps` is modelled by the predicate `resultJsonOk`: the standard
  encoder accepts `str`/`int`/`float`/`bool`/`None` and containers of those,
  and raises `TypeError` on `decimal.Decimal`.
-/

/-- Python `decimal.Decimal`: `fin m e` denotes `m · 10^e` (mantissa and
exponent kept as written, no normalization, mirroring CPython), plus signed
infinity and NaN (sign/payload of NaN dropped: the program never reads them). -/
inductive Dec where
  | fin (m : Int) (e : Int)
  | inf (neg : Bool)
  | nan
deriving DecidableEq, Repr

/-- Python scalar values.  `float m e` is a finite float identified with the
decimal value `m · 10^e` of its `repr`. -/
inductive PyScalar where
  | none
  | bool (b : Bool)
  | int (n : Int)
  | float (m : Int) (e : Int)
  | str (s : String)
  | dec (d : Dec)
deriving DecidableEq, Repr

/-- A Python value as the program sees it: a scalar, or a one-level-deep
JSON object / array (only ever inspected via `str(v)` and truthiness). -/
inductive PyVal where
  | scalar (v : PyScalar)
  | obj (entries : List (String × PyScalar))
  | arr (elems : List PyScalar)
deriving DecidableEq, Repr

/-- A Python dict with string keys, e.g. an ArcGIS attribute mapping or a
normalized item headed to DynamoDB. -/
abbrev Item := List (String × PyVal)

/-- One ArcGIS feature: `feat.get("attributes", {}) or {}` and
`feat.get("geometry", {}) or {}`. -/
structure Feature where
  attributes : Item
  geometry : Item
deriving DecidableEq, Repr

/-- Numeric value of a `Dec` (for stating value-level properties only;
infinity and NaN have no rational value and map to an unused default). -/
def decVal : Dec → ℚ
  | .fin m e => (m : ℚ) * (10 : ℚ) ^ e
  | .inf _ => 0
  | .nan => 0

/-- Python truthiness of a scalar. -/
def struthy : PyScalar → Bool
  | .none => false
  | .bool b => b
  | .int n => n ≠ 0
  | .float m _ => m ≠ 0
  | .str s => s ≠ ""
  | .dec d => match d with
    | .fin m _ => m ≠ 0
    | _ => true

/-- Python truthiness of a value (`dict`/`list` are truthy iff non-empty). -/
def truthy : PyVal → Bool
  | .scalar v => struthy v
  | .obj l => !l.isEmpty
  | .arr l => !l.isEmpty

/-- Python `a or b`: `a` if truthy, else `b`. -/
def orV (a b : PyVal) : PyVal := if truthy a then a else b

/-- `d.get(k)` on a string-keyed dict, with Python's `None` default. -/
def aget (a : Item) (k : String) : PyVal :=
  match a.lookup k with
  | some v => v
  | Option.none => .scalar .none

/-- ASCII decimal digit test. -/
def isDigitC (c : Char) : Bool := 48 ≤ c.toNat && c.toNat ≤ 57

/-- Positional value of a digit string. -/
def digVal (l : List Char) : Nat := l.foldl (fun a c => 10 * a + (c.toNat - 48)) 0

/-- Whitespace characters stripped by `str.strip()` / the `Decimal`
constructor (the ASCII whitespace set; the program's inputs contain no
exotic Unicode whitespace). -/
def isWsC (c : Char) : Bool :=
  c == ' ' || c == '\t' || c == '\n' || c == '\r' || c == '\x0b' || c == '\x0c'

/-- Drop trailing characters satisfying `p`. -/
def dropEndWhile (p : Char → Bool) (l : List Char) : List Char :=
  (l.reverse.dropWhile p).reverse

/-- Python `str.strip()`. -/
def pyStrip (l : List Char) : List Char := dropEndWhile isWsC (l.dropWhile isWsC)

/-- U+200B ZERO WIDTH SPACE, removed by the cleaning step. -/
def zwspC : Char := Char.ofNat 8203

/-- Python `str.replace(",", ".")`. -/
def commaDot (c : Char) : Char := if c = ',' then '.' else c

/-- Fuel-driven worker for `str.replace(pat, "")`: removes non-overlapping
occurrences of `pat` left to right.  Structural recursion on fuel keeps the
function kernel-reducible; `removeSub` supplies enough fuel that it never
runs out for a non-empty pattern. -/
def removeSubAux : Nat → List Char → List Char → List Char
  | 0, _, l => l
  | _ + 1, _, [] => []
  | fuel + 1, pat, c :: rest =>
    if pat.isPrefixOf (c :: rest) then removeSubAux fuel pat (List.drop pat.length (c :: rest))
    else c :: removeSubAux fuel pat rest

/-- Python `s.replace(pat, "")`. -/
def removeSub (pat l : List Char) : List Char := removeSubAux (l.length + 1) pat l

/-- The string cleaning performed by `to_decimal_safe` on `str` input:
`v.strip()`, then `.replace(" km", "").replace("km", "").replace(",", ".")`,
then `.replace("​", "")`. -/
def cleanNumStr (v : String) : String :=
  let l0 := pyStrip v.data
  let l1 := removeSub " km".data l0
  let l2 := removeSub "km".data l1
  let l3 := l2.map commaDot
  let l4 := l3.filter fun c => !(c == zwspC)
  String.mk l4

/-- Lowercase an ASCII letter (identity elsewhere). -/
def lowerC (c : Char) : Char :=
  if 65 ≤ c.toNat && c.toNat ≤ 90 then Char.ofNat (c.toNat + 32) else c

/-- Lowercase a character list. -/
def lowerAll (l : List Char) : List Char := l.map lowerC

/-- Optional exponent suffix of a `Decimal` literal: empty, or
`[eE][+-]?digits` with nothing after it. -/
def parseExpPart (l : List Char) : Option Int :=
  match l with
  | [] => some 0
  | c :: r =>
    if c == 'e' || c == 'E' then
      let p : Bool × List Char :=
        match r with
        | '-' :: t => (true, t)
        | '+' :: t => (false, t)
        | _ => (false, r)
      let ds := p.2.takeWhile isDigitC
      let rest := p.2.dropWhile isDigitC
      if ds.isEmpty || !rest.isEmpty then none
      else some (if p.1 then -(digVal ds : Int) else (digVal ds : Int))
    else none

/-- Unsigned numeric part of a `Decimal` literal: `digits[.digits*]` or
`.digits`, followed by an optional exponent.  Returns the mantissa/exponent
pair CPython's constructor would store. -/
def parseNumD (l : List Char) : Option Dec :=
  let ip := l.takeWhile isDigitC
  let r1 := l.dropWhile isDigitC
  match r1 with
  | '.' :: r2 =>
    let fp := r2.takeWhile isDigitC
    let r3 := r2.dropWhile isDigitC
    if ip.isEmpty && fp.isEmpty then none
    else (parseExpPart r3).map fun e =>
      Dec.fin ((digVal ip * 10 ^ fp.length + digVal fp : Nat) : Int) (e - (fp.length : Int))
  | _ =>
    if ip.isEmpty then none
    else (parseExpPart r1).map fun e => Dec.fin ((digVal ip : Nat) : Int) e

/-- Negate a finite `Dec` (used to apply a leading sign). -/
def negDec (neg : Bool) : Dec → Dec
  | .fin m e => .fin (if neg then -m else m) e
  | d => d

/-- `NaN` spellings accepted by `Decimal`: `nan`/`snan` with an optional
digit payload (input already lowercased). -/
def nanTail (l : List Char) : Bool :=
  match l with
  | a :: b :: c :: r => a == 'n' && b == 'a' && c == 'n' && r.all isDigitC
  | _ => false

/-- `nan...`/`snan...` test on a lowercased character list. -/
def isNanPat (low : List Char) : Bool :=
  nanTail low ||
    (match low with
     | c :: r => c == 's' && nanTail r
     | [] => false)

/-- Body of a `Decimal` literal after the optional sign: the special values
`inf`/`infinity`/`nan`/`snan` (case-insensitive) or a numeric literal. -/
def parseBody (neg : Bool) (l : List Char) : Option Dec :=
  let low := lowerAll l
  if low == "inf".data || low == "infinity".data then some (.inf neg)
  else if isNanPat low then some .nan
  else (parseNumD l).map (negDec neg)

/-- CPython's `Decimal(str)` constructor: whitespace-tolerant signed decimal
literal (or special value); `none` models the `InvalidOperation` it raises on
anything else. -/
def decimalParse (s : String) : Option Dec :=
  match pyStrip s.data with
  | [] => none
  | c :: r =>
    if c == '-' then parseBody true r
    else if c == '+' then parseBody false r
    else parseBody false (c :: r)

/-- Width-padded decimal rendering of a natural number. -/
def natPad (w : Nat) (n : Nat) : String :=
  let s := toString n
  if s.length < w then String.mk (List.replicate (w - s.length) '0') ++ s else s

/-- Render `m · 10^(-k)` as a plain decimal string. -/
def decDigits (m : Int) (k : Nat) : String :=
  let sgn := if m < 0 then "-" else ""
  let s := toString m.natAbs
  if k = 0 then sgn ++ s
  else
    let s2 := if s.length ≤ k then String.mk (List.replicate (k + 1 - s.length) '0') ++ s else s
    sgn ++ String.mk (s2.data.take (s2.length - k)) ++ "." ++ String.mk (s2.data.drop (s2.length - k))

/-- `str()` of a finite float (plain positional rendering; the program never
inspects the text, so scientific notation for extreme exponents is not
reproduced). -/
def floatStr (m e : Int) : String :=
  if 0 ≤ e then
    (if m < 0 then "-" else "") ++ toString m.natAbs ++ String.mk (List.replicate e.toNat '0') ++ ".0"
  else decDigits m (-e).toNat

/-- `str()` of a `Dec` (same positional-rendering caveat as `floatStr`). -/
def decStr : Dec → String
  | .fin m e =>
    if 0 ≤ e then (if m < 0 then "-" else "") ++ toString m.natAbs ++ String.mk (List.replicate e.toNat '0')
    else decDigits m (-e).toNat
  | .inf neg => if neg then "-Infinity" else "Infinity"
  | .nan => "NaN"

/-- `str()` of a scalar. -/
def scalarStr : PyScalar → String
  | .none => "None"
  | .bool b => if b then "True" else "False"
  | .int n => toString n
  | .float m e => floatStr m e
  | .str s => s
  | .dec d => decStr d

/-- Comma-joined repr of dict entries. -/
def objEntriesStr : List (String × PyScalar) → String
  | [] => ""
  | [(k, v)] => "'" ++ k ++ "': " ++ scalarStr v
  | (k, v) :: rest => "'" ++ k ++ "': " ++ scalarStr v ++ ", " ++ objEntriesStr rest

/-- Comma-joined repr of list elements. -/
def arrElemsStr : List PyScalar → String
  | [] => ""
  | [v] => scalarStr v
  | v :: rest => scalarStr v ++ ", " ++ arrElemsStr rest

/-- Python `str(v)` (never raises on these values; the rendering of
containers is approximate, which is irrelevant: the program only stores the
text). -/
def pyStr : PyVal → String
  | .scalar v => scalarStr v
  | .obj l => "\x7b" ++ objEntriesStr l ++ "\x7d"
  | .arr l => "[" ++ arrElemsStr l ++ "]"

/-- `to_decimal_safe` from `scrap_table.py`.  Dispatch mirrors the source's
`isinstance` ladder — note `bool` is a subtype of `int` in Python, so `True`
and `False` take the `int` branch and become `Decimal(1)` / `Decimal(0)`.
Every fallible primitive (`Decimal(...)`, `str(...)`) is wrapped in
`try/except` in the source; here each failure is an `Option.none` handled
in place, so the embedding is a total function: the source never raises. -/
def to_decimal_safe (v : PyVal) : PyVal :=
  match v with
  | .scalar .none => .scalar .none
  | .scalar (.dec d) => .scalar (.dec d)
  | .scalar (.bool b) => .scalar (.dec (.fin (if b then 1 else 0) 0))
  | .scalar (.int n) => .scalar (.dec (.fin n 0))
  | .scalar (.float m e) =>
    -- Decimal(str(v)): the repr of a finite float always parses, so the
    -- source's except-branch (return None) is unreachable for finite floats.
    .scalar (.dec (.fin m e))
  | .scalar (.str s) =>
    let c := cleanNumStr s
    match decimalParse c with
    | some d => .scalar (.dec d)
    | Option.none => .scalar (.str c)
  | w => .scalar (.str (pyStr w))

/-- `clean_item_for_dynamo` from `scrap_table.py`: drop the keys whose value
`is None` (DynamoDB rejects null attributes). -/
def clean_item_for_dynamo (item : Item) : Item :=
  item.filter fun kv => decide (kv.2 ≠ PyVal.scalar .none)

/-- Year/month/day from a count of days since the Unix epoch (civil-calendar
algorithm, proleptic Gregorian, as `datetime.utcfromtimestamp` uses). -/
def civilFromDays (z0 : Int) : Int × Nat × Nat :=
  let z := z0 + 719468
  let era := z.ediv 146097
  let doe := (z.emod 146097).toNat
  let yoe := (doe - doe / 1460 + doe / 36524 - doe / 146096) / 365
  let y := (yoe : Int) + era * 400
  let doy := doe - (365 * yoe + yoe / 4 - yoe / 100)
  let mp := (5 * doy + 2) / 153
  let d := doy - (153 * mp + 2) / 5 + 1
  let m := if mp < 10 then mp + 3 else mp - 9
  (if m ≤ 2 then y + 1 else y, m, d)

/-- `datetime.utcfromtimestamp(us / 10^6).isoformat()` on a microsecond
count: `none` models the `OverflowError`/`OSError` raised outside
`datetime`'s year range 1..9999 (caught by the source's `try/except`). -/
def epochUsToIso (us : Int) : Option String :=
  let secs := us.ediv 1000000
  let micro := (us.emod 1000000).toNat
  let days := secs.ediv 86400
  let sod := (secs.emod 86400).toNat
  let ymd := civilFromDays days
  if 1 ≤ ymd.1 ∧ ymd.1 ≤ 9999 then
    some (natPad 4 ymd.1.toNat ++ "-" ++ natPad 2 ymd.2.1 ++ "-" ++ natPad 2 ymd.2.2 ++ "T" ++
      natPad 2 (sod / 3600) ++ ":" ++ natPad 2 (sod % 3600 / 60) ++ ":" ++ natPad 2 (sod % 60) ++
      (if micro = 0 then "" else "." ++ natPad 6 micro))
  else none

/-- Microseconds since the epoch denoted by a numeric (`isinstance(v, (int,
float))`, which in Python includes `bool`) millisecond value; `none` for
non-numeric scalars.  The source divides by 1000 in float arithmetic and the
timestamp is kept only as an opaque string, so exact flooring is used here. -/
def pyNumUs : PyScalar → Option Int
  | .int n => some (n * 1000)
  | .bool b => some (if b then 1000 else 0)
  | .float m e =>
    some (if 0 ≤ e + 3 then m * 10 ^ (e + 3).toNat else m.fdiv (10 ^ (-(e + 3)).toNat))
  | _ => none

/-- The `fecha` handling in `fetch_latest_sismos`: a numeric value is turned
into `fecha_iso` (falling back to `fecha_raw = str(val)` if conversion
raises); a non-numeric value gives `fecha_raw = str(val)`, except that a
missing/None value gives `fecha_raw = None` — the key is still set. -/
def fechaFields (fv : PyVal) : Item :=
  match fv with
  | .scalar s =>
    match pyNumUs s with
    | some us =>
      match epochUsToIso us with
      | some iso => [("fecha_iso", .scalar (.str (iso ++ "Z")))]
      | Option.none => [("fecha_raw", .scalar (.str (scalarStr s)))]
    | Option.none =>
      match s with
      | .none => [("fecha_raw", .scalar .none)]
      | _ => [("fecha_raw", .scalar (.str (scalarStr s)))]
  | v => [("fecha_raw", .scalar (.str (pyStr v)))]

/-- The raw-attribute passthrough: scalars kept as-is except floats, which go
through `to_decimal_safe`; non-scalar values are stringified (`str(v)` cannot
fail on these values, so the source's except-branch storing None is
unreachable). -/
def rawScalar (v : PyVal) : PyScalar :=
  match v with
  | .scalar (.str s) => .str s
  | .scalar (.int n) => .int n
  | .scalar (.bool b) => .bool b
  | .scalar .none => .none
  | .scalar (.float m e) =>
    match to_decimal_safe (.scalar (.float m e)) with
    | .scalar u => u
    | _ => .none
  | w => .str (pyStr w)

/-- The per-feature body of the loop in `fetch_latest_sismos`: build the
normalized item, probing the alias chains with Python `or` and routing
numeric fields through `to_decimal_safe`.  Keys appear in assignment order. -/
def normalizeFeature (feat : Feature) : Item :=
  let attr := feat.attributes
  let geom := feat.geometry
  let fecha_val := orV (aget attr "fecha") (aget attr "Fecha")
  let mag := orV (aget attr "mag") (orV (aget attr "MAG") (orV (aget attr "magnitud") (aget attr "magn")))
  let prof := orV (aget attr "profundidad") (orV (aget attr "PROFUNDIDAD") (orV (aget attr "depth") (aget attr "z")))
  let ref := orV (aget attr "referencia") (orV (aget attr "Referencia") (orV (aget attr "ref") (orV (aget attr "referencia_texto") (.scalar .none))))
  let lat := orV (aget geom "y") (orV (aget attr "lat") (orV (aget attr "LAT") (aget attr "latitude")))
  let lon := orV (aget geom "x") (orV (aget attr "lon") (orV (aget attr "LON") (aget attr "longitude")))
  let rid := orV (aget attr "OBJECTID") (orV (aget attr "OBJECTID_1") (orV (aget attr "id") (orV (aget attr "ID") (.scalar .none))))
  fechaFields fecha_val ++
    [("magnitud", to_decimal_safe mag),
     ("profundidad_km", to_decimal_safe prof),
     ("referencia_texto", ref),
     ("latitude", to_decimal_safe lat),
     ("longitude", to_decimal_safe lon),
     ("report_id", rid),
     ("raw_attributes", PyVal.obj (attr.map fun kv => (kv.1, rawScalar kv.2)))]

/-- `fetch_latest_sismos` on an already-parsed, non-raising response: the
HTTP call, `raise_for_status` and JSON parsing are the oracle part of the
fetch (`Env.fetchRaw`); given the feature list, the rest is this pure map. -/
def fetch_latest_sismos (features : List Feature) : List Item :=
  features.map normalizeFeature

/-- Outcome of the scan-and-delete cleanup block: the `table_db.scan` raises;
or it returns items (their `"id"` projections) and every delete succeeds; or
deleting the `k`-th present id raises (covering batch-flush failures too). -/
inductive ScanDelO where
  | scanFail (msg : String)
  | allOk (items : List (Option String))
  | delFail (items : List (Option String)) (k : Nat) (msg : String)
deriving DecidableEq, Repr

/-- Oracle for one invocation's external effects. -/
structure Env where
  /-- `fetch_latest_sismos`'s request/parse phase: the feature list, or the
  exception text of a transport/parse failure. -/
  fetchRaw : Except String (List Feature)
  /-- Outcome of the cleanup scan/delete block. -/
  scanDel : ScanDelO
  /-- `some (i, isClientError, msg)`: the `put_item` for 0-based index `i`
  raises (`ClientError` when the flag is set, another exception otherwise);
  `none` (or an index past the batch): every insert succeeds. -/
  putFail : Option (Nat × Bool × String)
  /-- The verification `scan(Limit=20)`: the resulting item count, or the
  exception text. -/
  afterScan : Except String Nat
  /-- `str(uuid.uuid4())` for the `idx`-th insert. -/
  uuid : Nat → String

/-- One DynamoDB operation, in the order the handler issued it. -/
inductive StoreOp where
  | scanOp
  | delete (key : String)
  | put (item : Item)
  | scanAfterOp
deriving DecidableEq, Repr

/-- The ids a scan's items actually carry (`if "id" in it`). -/
def presentIds (items : List (Option String)) : List String := items.filterMap id

/-- Warning strings the scan/delete block appends to `result["errors"]`. -/
def scanDelWarns : ScanDelO → List String
  | .scanFail m => ["Warn scan/delete: " ++ m]
  | .allOk _ => []
  | .delFail _ _ m => ["Warn scan/delete: " ++ m]

/-- Store operations the scan/delete block issues. -/
def scanDelOps : ScanDelO → List StoreOp
  | .scanFail _ => [.scanOp]
  | .allOk items => .scanOp :: (presentIds items).map StoreOp.delete
  | .delFail items k _ => .scanOp :: ((presentIds items).take k).map StoreOp.delete

/-- `result`, the aggregated run outcome `lambda_handler` serializes. -/
structure RunResult where
  fetched : Nat
  saved : Nat
  table_after_save_count : Nat
  errors : List String
  sample_saved : List Item
deriving DecidableEq, Repr

/-- The handler's return value: `statusCode` plus the run result (the body is
`json.dumps` of the result; the model keeps the structured value). -/
structure Response where
  statusCode : Nat
  body : RunResult
deriving DecidableEq, Repr

/-- The `TypeError` text `json.dumps` raises on a `Decimal`. -/
def tyErrMsg : String := "TypeError: Object of type Decimal is not JSON serializable"

/-- Stand-in for the `traceback.format_exc()` string appended after each
captured fatal error. -/
def tbOf (e : String) : String := "Traceback (most recent call last): " ++ e

/-- The message recorded when the upstream returns zero features. -/
def noSismosMsg : String := "No se obtuvieron sismos desde ArcGIS"

/-- Whether the default JSON encoder accepts a scalar: everything except
`decimal.Decimal`. -/
def scalarJsonOk : PyScalar → Bool
  | .dec _ => false
  | _ => true

/-- Whether the default JSON encoder accepts a value. -/
def pyJsonOk : PyVal → Bool
  | .scalar v => scalarJsonOk v
  | .obj l => l.all fun kv => scalarJsonOk kv.2
  | .arr l => l.all scalarJsonOk

/-- Whether `json.dumps` accepts an item. -/
def itemJsonOk (it : Item) : Bool := it.all fun kv => pyJsonOk kv.2

/-- Whether `json.dumps(result)` succeeds: counts are ints and errors are
strings, so only `sample_saved` can smuggle in a `Decimal`. -/
def resultJsonOk (r : RunResult) : Bool := r.sample_saved.all itemJsonOk

/-- Build a `return {"statusCode": ..., "body": json.dumps(result)}` value:
if the result is not JSON-serializable the `json.dumps` call itself raises
`TypeError`, which nothing in `lambda_handler` catches. -/
def finish (code : Nat) (r : RunResult) : Except String Response :=
  if resultJsonOk r then .ok ⟨code, r⟩ else .error tyErrMsg

/-- The item actually inserted for batch position `idx` (0-based):
`item = dict(s); item["id"] = str(uuid4()); item["numero"] = idx + 1;
cleaned = clean_item_for_dynamo(item)`. -/
def buildItem (env : Env) (idx : Nat) (s : Item) : Item :=
  clean_item_for_dynamo
    (s ++ [("id", PyVal.scalar (.str (env.uuid idx))), ("numero", PyVal.scalar (.int (idx + 1 : Int)))])

/-- Map `buildItem` over a batch, threading the 0-based index. -/
def buildFrom (env : Env) : Nat → List Item → List Item
  | _, [] => []
  | idx, s :: rest => buildItem env idx s :: buildFrom env (idx + 1) rest

/-- The items whose `put_item` completed: everything before the first failing
index (everything, when no put fails or the failing index is past the
batch). -/
def builtSaved (env : Env) (sismos : List Item) : List Item :=
  match env.putFail with
  | some (i, _, _) => buildFrom env 0 (sismos.take i)
  | Option.none => buildFrom env 0 sismos

/-- Whether a put failure actually fires on a batch of length `n`. -/
def effFail (env : Env) (n : Nat) : Option (Bool × String) :=
  match env.putFail with
  | some (i, ce, m) => if i < n then some (ce, m) else none
  | Option.none => none

/-- The error-list entry for a fatal write error (the `except ClientError`
and generic `except Exception` arms use different prefixes). -/
def writeErrMsg (ce : Bool) (m : String) : String :=
  (if ce then "Dynamo ClientError: " else "Write error: ") ++ m

/-- The write phase of `lambda_handler` (cleanup scan/delete, inserts,
verification scan), entered only with a non-empty batch. -/
def insertPhase (env : Env) (sismos : List Item) : Except String Response × List StoreOp :=
  let warns := scanDelWarns env.scanDel
  let dOps := scanDelOps env.scanDel
  let saved := builtSaved env sismos
  let pOps := saved.map StoreOp.put
  match effFail env sismos.length with
  | some (ce, m) =>
    (finish 500 ⟨sismos.length, saved.length, 0, warns ++ [writeErrMsg ce m, tbOf m], saved.take 5⟩,
     dOps ++ pOps)
  | Option.none =>
    match env.afterScan with
    | .ok n =>
      (finish 200 ⟨sismos.length, saved.length, n, warns, saved.take 5⟩,
       dOps ++ pOps ++ [.scanAfterOp])
    | .error m =>
      (finish 200 ⟨sismos.length, saved.length, 0, warns ++ ["Warn scan after: " ++ m], saved.take 5⟩,
       dOps ++ pOps ++ [.scanAfterOp])

/-- `lambda_handler` from `scrap_table.py`, as a function of the effect
oracle: the response it returns (`Except.error` = an exception escapes the
handler) paired with the chronological trace of store operations issued. -/
def lambda_handler (env : Env) : Except String Response × List StoreOp :=
  match env.fetchRaw with
  | .error e => (finish 500 ⟨0, 0, 0, ["Error fetch: " ++ e, tbOf e], []⟩, [])
  | .ok feats =>
    let sismos := fetch_latest_sismos feats
    if sismos.isEmpty then (finish 404 ⟨sismos.length, 0, 0, [noSismosMsg], []⟩, [])
    else insertPhase env sismos

deriving instance DecidableEq for Except

/-- Spec-side alias probing ("take the first present value", read with
Python `or` semantics): the first truthy element, or the last element when
none is truthy (`[]` only for empty chains, which the program never builds). -/
def firstTruthyAlias : List PyVal → PyVal
  | [] => .scalar .none
  | [v] => v
  | v :: rest => if truthy v then v else firstTruthyAlias rest

/-- Spec-side shape of a decimal-parseable string: optional minus sign,
integer digits, an optional fractional part behind a comma or dot separator,
and an optional `km` unit suffix. -/
def numForm (neg : Bool) (ip fp : List Char) (sep : Char) (unit : String) : String :=
  String.mk ((if neg then ['-'] else []) ++ ip ++ (if fp.isEmpty then [] else sep :: fp) ++ unit.data)

/-- Spec-side numeric value of such a string (standard positional reading). -/
def numFormVal (neg : Bool) (ip fp : List Char) : ℚ :=
  (if neg then (-1 : ℚ) else 1) * ((digVal ip : ℚ) + (digVal fp : ℚ) / (10 : ℚ) ^ fp.length)

/-- C2's concrete record: `mag` present but `0` (falsy), `MAG` present as
float `4.5`. -/
def featC2 : Feature := ⟨[("mag", .scalar (.int 0)), ("MAG", .scalar (.float 45 (-1)))], []⟩

/-- C3's concrete record: no depth alias (and no timestamp alias) present. -/
def featC3 : Feature := ⟨[("mag", .scalar (.str "4.5"))], []⟩

/-- C1's run: one feature whose magnitude coerces to a `Decimal`, every
store call succeeding. -/
def envC1 : Env := ⟨.ok [⟨[("mag", .scalar (.str "4.5"))], []⟩], .allOk [], none, .ok 1, fun _ => "u0"⟩

/-- C6's run: fully successful (fetch ok, non-empty batch, every insert ok)
with a `Decimal`-bearing record. -/
def envC6 : Env := ⟨.ok [⟨[("mag", .scalar (.str "7.1"))], []⟩], .allOk [], none, .ok 1, fun _ => "u1"⟩

/-- C6 witness run: upstream yields zero features. -/
def envW6 : Env := ⟨.ok [], .allOk [], none, .ok 0, fun _ => "w"⟩

/-- C7's run: the cleanup scan fails and a `Decimal`-bearing record is
inserted successfully. -/
def envC7 : Env := ⟨.ok [⟨[("mag", .scalar (.str "6.1"))], []⟩], .scanFail "AccessDenied", none, .ok 1, fun _ => "u2"⟩

/-- C7 witness run: scan failure with an all-string (JSON-serializable)
record. -/
def envW7 : Env :=
  ⟨.ok [⟨[("mag", .scalar (.str "moderate")), ("referencia", .scalar (.str "Lima"))], []⟩],
   .scanFail "AccessDeniedException", none, .ok 1, fun _ => "w7"⟩

/-- C8's run: the second insert fails after the first saved a `Decimal`. -/
def envC8 : Env :=
  ⟨.ok [⟨[("mag", .scalar (.str "5.0"))], []⟩, ⟨[("mag", .scalar (.str "5.5"))], []⟩],
   .allOk [], some (1, true, "ProvisionedThroughputExceeded"), .ok 1, fun _ => "u3"⟩

/-- C8 witness run: the first insert fails, so the partial sample is empty
and serializable. -/
def envW8 : Env := ⟨.ok [⟨[("mag", .scalar (.str "4.4"))], []⟩], .allOk [], some (0, false, "err"), .ok 1, fun _ => "w8"⟩

/-- C9 witness feature (all-string fields). -/
def featW9 : Feature := ⟨[("referencia", .scalar (.str "Lima"))], []⟩

/-- C9 witness run: one pre-existing key to delete, one record to insert. -/
def envW9 : Env := ⟨.ok [featW9], .allOk [some "old1"], none, .ok 1, fun _ => "u9"⟩

/-- C10 witness feature (all-string fields, so the body serializes). -/
def featW10 : Feature := ⟨[("mag", .scalar (.str "strong")), ("referencia", .scalar (.str "Lima"))], []⟩

/-- C10 witness run: fully successful. -/
def envW10 : Env := ⟨.ok [featW10], .allOk [some "old1"], none, .ok 1, fun _ => "w10"⟩

/-- The expected C10 witness response. -/
def respW10 : Response := ⟨200, ⟨1, 1, 1, [], [buildItem envW10 0 (normalizeFeature featW10)]⟩⟩

lemma fechaFields_key (fv : PyVal) :
    ∃ v, fechaFields fv = [("fecha_iso", v)] ∨ fechaFields fv = [("fecha_raw", v)] := by
  unfold fechaFields
  repeat' split
  all_goals first
    | exact ⟨_, Or.inl rfl⟩
    | exact ⟨_, Or.inr rfl⟩

lemma lookup_cons_ne {k k' : String} {v : PyVal} {rest : Item} (h : k' ≠ k) :
    List.lookup k ((k', v) :: rest) = List.lookup k rest := by
  have hb : (k == k') = false := beq_eq_false_iff_ne.mpr (Ne.symm h)
  simp [List.lookup, hb]

lemma orV_chain_eq (a b c d : PyVal) : orV a (orV b (orV c d)) = firstTruthyAlias [a, b, c, d] := by
  simp [firstTruthyAlias, orV]

/-- Claim C2 (counterexample): in a record where the first magnitude alias
`mag` is present (with value `0`) and `MAG` is present with a different
value `4.5`, normalization does not take the first present alias: Python
`or` skips the falsy `0` and yields `MAG`'s value. -/
theorem magnitud_zero_alias_cex :
    List.lookup "magnitud" (normalizeFeature featC2) = some (PyVal.scalar (.dec (.fin 45 (-1)))) ∧
    to_decimal_safe (aget featC2.attributes "mag") = PyVal.scalar (.dec (.fin 0 0)) ∧
    PyVal.scalar (PyScalar.dec (.fin 45 (-1))) ≠ PyVal.scalar (.dec (.fin 0 0)) := by
  decide

/-- Claim C2 (amended): for every raw record, the canonical `magnitud` field
is the coercion of the first magnitude alias whose value is truthy, in the
precedence order `mag`, `MAG`, `magnitud`, `magn`; aliases present with a
falsy value (`0`, `0.0`, `""`, `False`, `None`) are skipped, and if no alias
is truthy the last alias's value (None when absent) is used. -/
theorem magnitud_first_truthy_alias (feat : Feature) :
    List.lookup "magnitud" (normalizeFeature feat) =
      some (to_decimal_safe (firstTruthyAlias
        [aget feat.attributes "mag", aget feat.attributes "MAG",
         aget feat.attributes "magnitud", aget feat.attributes "magn"])) := by
  rw [← orV_chain_eq]
  simp only [normalizeFeature]
  obtain ⟨v, h | h⟩ :=
    fechaFields_key (orV (aget feat.attributes "fecha") (aget feat.attributes "Fecha")) <;>
  · rw [h]
    rw [List.singleton_append, lookup_cons_ne (by decide)]
    simp [List.lookup]

/-- Claim C3 (counterexample): normalizing a record that lacks every alias of
`profundidad_km` (and of the timestamp) produces an item in which those keys
are present and bound to `None` — the normalizer itself does not omit them. -/
theorem depth_key_none_cex :
    List.lookup "profundidad_km" (normalizeFeature featC3) = some (PyVal.scalar PyScalar.none) ∧
    List.lookup "fecha_raw" (normalizeFeature featC3) = some (PyVal.scalar PyScalar.none) := by
  decide

/-- Claim C3 (amended): the normalizer leaves `None` placeholders on items,
and it is `clean_item_for_dynamo` — applied to every item immediately before
its insert — that drops exactly the `None`-valued keys, so the stored item
omits such keys entirely; in particular the depth key of C3's record is
absent (by key presence) from the cleaned item. -/
theorem clean_item_absence :
    (∀ (item : Item) (k : String) (v : PyVal),
        (k, v) ∈ clean_item_for_dynamo item ↔ ((k, v) ∈ item ∧ v ≠ PyVal.scalar .none)) ∧
    List.lookup "profundidad_km" (clean_item_for_dynamo (normalizeFeature featC3)) = Option.none := by
  constructor
  · intro item k v
    simp [clean_item_for_dynamo, List.mem_filter]
  · decide

/-- Claim C5: `to_decimal_safe` is total on every Python value (each fallible
primitive it calls is guarded by `try/except` in the source, so the embedding
is a total function and the source never raises); `None` maps to `None`, and
every result is a `Decimal`, a string, or `None`. -/
theorem to_decimal_safe_never_raises :
    to_decimal_safe (PyVal.scalar .none) = PyVal.scalar .none ∧
    ∀ v : PyVal, to_decimal_safe v = PyVal.scalar .none ∨
      (∃ d, to_decimal_safe v = PyVal.scalar (.dec d)) ∨
      (∃ s, to_decimal_safe v = PyVal.scalar (.str s)) := by
  refine ⟨rfl, ?_⟩
  intro v
  match v with
  | .scalar .none => exact Or.inl rfl
  | .scalar (.dec d) => exact Or.inr (Or.inl ⟨d, rfl⟩)
  | .scalar (.bool b) => exact Or.inr (Or.inl ⟨_, rfl⟩)
  | .scalar (.int n) => exact Or.inr (Or.inl ⟨_, rfl⟩)
  | .scalar (.float m e) => exact Or.inr (Or.inl ⟨_, rfl⟩)
  | .scalar (.str s) =>
    cases h : decimalParse (cleanNumStr s) with
    | some d => exact Or.inr (Or.inl ⟨d, by simp [to_decimal_safe, h]⟩)
    | none => exact Or.inr (Or.inr ⟨cleanNumStr s, by simp [to_decimal_safe, h]⟩)
  | .obj l => exact Or.inr (Or.inr ⟨_, rfl⟩)
  | .arr l => exact Or.inr (Or.inr ⟨_, rfl⟩)

/-- Claim C1 (code evaluated at the failing input): on a run where the fetch
succeeds with one feature (`mag = "4.5"`), every store call succeeds and no
stage fails, `lambda_handler` does not return a structured response: the
final `json.dumps(result)` raises `TypeError` because the saved sample
contains the `Decimal` magnitude, and nothing catches it. -/
theorem lambda_handler_decimal_sample_raises :
    (lambda_handler envC1).1 = Except.error tyErrMsg ∧
    envC1.putFail = none ∧ envC1.scanDel = ScanDelO.allOk [] := by
  decide

lemma mem_delete_map {l : List String} {op : StoreOp} (h : op ∈ l.map StoreOp.delete) :
    ∃ a, op = StoreOp.delete a := by
  obtain ⟨a, _, ha⟩ := List.mem_map.mp h
  exact ⟨a, ha.symm⟩

lemma scanDelOps_no_put {o : ScanDelO} {op : StoreOp} (h : op ∈ scanDelOps o) (it : Item) :
    op ≠ StoreOp.put it := by
  cases o with
  | scanFail m =>
    simp only [scanDelOps, List.mem_singleton] at h
    subst h; simp
  | allOk items =>
    simp only [scanDelOps, List.mem_cons] at h
    rcases h with h | h
    · subst h; simp
    · obtain ⟨a, ha⟩ := mem_delete_map h
      subst ha; simp
  | delFail items k m =>
    simp only [scanDelOps, List.mem_cons] at h
    rcases h with h | h
    · subst h; simp
    · obtain ⟨a, ha⟩ := mem_delete_map h
      subst ha; simp

lemma puts_no_delete {l : List Item} {op : StoreOp} (h : op ∈ l.map StoreOp.put) (k : String) :
    op ≠ StoreOp.delete k := by
  simp at h
  obtain ⟨a, _, h⟩ := h
  subst h; simp

lemma insertPhase_trace (env : Env) (sismos : List Item) :
    ∃ b, (insertPhase env sismos).2 = scanDelOps env.scanDel ++ b ∧
      ∀ op ∈ b, ∀ k, op ≠ StoreOp.delete k := by
  simp only [insertPhase]
  cases h : effFail env sismos.length with
  | some p =>
    obtain ⟨ce, m⟩ := p
    refine ⟨(builtSaved env sismos).map StoreOp.put, rfl, ?_⟩
    exact fun op hop k => puts_no_delete hop k
  | none =>
    cases ha : env.afterScan with
    | ok n =>
      refine ⟨(builtSaved env sismos).map StoreOp.put ++ [StoreOp.scanAfterOp], by simp, ?_⟩
      intro op hop k
      rcases List.mem_append.mp hop with hop | hop
      · exact puts_no_delete hop k
      · simp at hop; subst hop; simp
    | error m =>
      refine ⟨(builtSaved env sismos).map StoreOp.put ++ [StoreOp.scanAfterOp], by simp, ?_⟩
      intro op hop k
      rcases List.mem_append.mp hop with hop | hop
      · exact puts_no_delete hop k
      · simp at hop; subst hop; simp

lemma trace_decomp (env : Env) :
    ∃ a b, (lambda_handler env).2 = a ++ b ∧
      (∀ op ∈ a, ∀ it, op ≠ StoreOp.put it) ∧
      (∀ op ∈ b, ∀ k, op ≠ StoreOp.delete k) := by
  cases hf : env.fetchRaw with
  | error e => exact ⟨[], [], by simp [lambda_handler, hf], by simp, by simp⟩
  | ok feats =>
    by_cases he : (fetch_latest_sismos feats).isEmpty
    · exact ⟨[], [], by simp [lambda_handler, hf, he], by simp, by simp⟩
    · obtain ⟨b, hb, hnd⟩ := insertPhase_trace env (fetch_latest_sismos feats)
      refine ⟨scanDelOps env.scanDel, b, ?_, ?_, hnd⟩
      · rw [← hb]; simp [lambda_handler, hf, he]
      · exact fun op hop it => scanDelOps_no_put hop it

/-- Claim C9: in every run, every `delete` the handler issues to the table
occurs strictly earlier in the operation trace than every `put`: the old
snapshot's keys are deleted before any new record is inserted. -/
theorem deletes_precede_inserts (env : Env) (i j : Nat) (key : String) (item : Item)
    (hd : ((lambda_handler env).2).get? i = some (StoreOp.delete key))
    (hp : ((lambda_handler env).2).get? j = some (StoreOp.put item)) : i < j := by
  obtain ⟨a, b, htr, hna, hnb⟩ := trace_decomp env
  rw [htr] at hd hp
  have hia : i < a.length := by
    by_contra hge
    push_neg at hge
    rw [List.get?_append_right hge] at hd
    exact hnb _ (List.get?_mem hd) key rfl
  have hja : ¬ j < a.length := by
    intro hj
    rw [List.get?_append hj] at hp
    exact hna _ (List.get?_mem hp) item rfl
  omega

/-- Claim C9 witness: a run with one pre-existing key and one insert; the
delete sits at trace position 1 and the put at position 2, and the theorem
yields `1 < 2`. -/
theorem deletes_precede_inserts_witness :
    ((lambda_handler envW9).2).get? 1 = some (StoreOp.delete "old1") ∧ (1 : Nat) < 2 :=
  ⟨by decide,
   deletes_precede_inserts envW9 1 2 "old1" (buildItem envW9 0 (normalizeFeature featW9))
     (by decide) (by decide)⟩

lemma finish_ok {code : Nat} {b : RunResult} {r : Response} (h : finish code b = Except.ok r) :
    r = ⟨code, b⟩ := by
  unfold finish at h
  split at h
  · injection h with h
    exact h.symm
  · cases h

lemma buildFrom_length (env : Env) : ∀ (i : Nat) (l : List Item), (buildFrom env i l).length = l.length
  | _, [] => rfl
  | i, s :: rest => by simp [buildFrom, buildFrom_length env (i + 1) rest]

lemma builtSaved_length_of_none {env : Env} {sismos : List Item}
    (h : effFail env sismos.length = none) :
    (builtSaved env sismos).length = sismos.length := by
  unfold effFail at h
  unfold builtSaved
  rcases hp : env.putFail with _ | ⟨i, ce, m⟩
  · exact buildFrom_length env 0 sismos
  · rw [hp] at h
    by_cases hi : i < sismos.length
    · have h' : (if i < sismos.length then some (ce, m) else (none : Option (Bool × String))) = none := h
      rw [if_pos hi] at h'
      cases h'
    · show (buildFrom env 0 (sismos.take i)).length = sismos.length
      rw [buildFrom_length, List.length_take]
      omega

lemma isEmpty_false_of_ne_nil {α : Type} {l : List α} (h : l ≠ []) : l.isEmpty = false := by
  cases l with
  | nil => exact absurd rfl h
  | cons a t => rfl

/-- Claim C10: whenever `lambda_handler` returns a 200 response, the body
reports `saved = fetched` and `fetched > 0`: a fully successful run inserted
every fetched record and the batch was non-empty. -/
theorem success_saved_equals_fetched (env : Env) (r : Response)
    (h : (lambda_handler env).1 = Except.ok r) (h200 : r.statusCode = 200) :
    r.body.saved = r.body.fetched ∧ 0 < r.body.fetched := by
  cases hf : env.fetchRaw with
  | error e =>
    simp only [lambda_handler, hf] at h
    rw [finish_ok h] at h200
    cases h200
  | ok feats =>
    by_cases he : (fetch_latest_sismos feats).isEmpty
    · simp only [lambda_handler, hf, he, if_true] at h
      rw [finish_ok h] at h200
      cases h200
    · simp only [lambda_handler, hf, he, if_false, Bool.false_eq_true] at h
      simp only [insertPhase] at h
      cases hef : effFail env (fetch_latest_sismos feats).length with
      | some p =>
        obtain ⟨ce, m⟩ := p
        rw [hef] at h
        rw [finish_ok h] at h200
        cases h200
      | none =>
        rw [hef] at h
        have hlen : (builtSaved env (fetch_latest_sismos feats)).length =
            (fetch_latest_sismos feats).length := builtSaved_length_of_none hef
        have hpos : 0 < (fetch_latest_sismos feats).length := by
          cases hl : fetch_latest_sismos feats with
          | nil => rw [hl] at he; exact absurd rfl he
          | cons a t => simp
        cases ha : env.afterScan with
        | ok n =>
          rw [ha] at h
          rw [finish_ok h]
          exact ⟨hlen, hpos⟩
        | error m =>
          rw [ha] at h
          rw [finish_ok h]
          exact ⟨hlen, hpos⟩

/-- Claim C10 witness: a concrete fully-successful run returning 200 with
`saved = fetched = 1`. -/
theorem success_saved_equals_fetched_witness :
    (lambda_handler envW10).1 = Except.ok respW10 ∧
    respW10.body.saved = respW10.body.fetched ∧ 0 < respW10.body.fetched := by
  have h : (lambda_handler envW10).1 = Except.ok respW10 := by decide
  exact ⟨h, success_saved_equals_fetched envW10 respW10 h rfl⟩

lemma handler_main {env : Env} {feats : List Feature}
    (h1 : env.fetchRaw = Except.ok feats) (h2 : feats ≠ []) :
    lambda_handler env = insertPhase env (fetch_latest_sismos feats) := by
  have he : (fetch_latest_sismos feats).isEmpty = false := by
    unfold fetch_latest_sismos
    cases feats with
    | nil => exact absurd rfl h2
    | cons a t => rfl
  simp [lambda_handler, h1, he]

lemma finish_eval_ok {code : Nat} {b : RunResult} (h : resultJsonOk b = true) :
    finish code b = Except.ok ⟨code, b⟩ := by
  simp [finish, h]

lemma finish_eval_err {code : Nat} {b : RunResult} (h : resultJsonOk b = false) :
    finish code b = Except.error tyErrMsg := by
  simp [finish, h]

lemma sismos_length {feats : List Feature} :
    (fetch_latest_sismos feats).length = feats.length := by
  unfold fetch_latest_sismos
  exact List.length_map _ _

lemma effFail_pos {env : Env} {n : Nat} {p : Bool × String} (h : effFail env n = some p) : 0 < n := by
  unfold effFail at h
  rcases hp : env.putFail with _ | ⟨i, ce, m⟩ <;> rw [hp] at h
  · cases h
  · by_cases hi : i < n
    · omega
    · have h' : (if i < n then some (ce, m) else (none : Option (Bool × String))) = some p := h
      rw [if_neg hi] at h'
      cases h'

lemma effFail_builtSaved {env : Env} {sismos : List Item} {i : Nat} {ce : Bool} {m : String}
    (h : env.putFail = some (i, ce, m)) :
    builtSaved env sismos = buildFrom env 0 (sismos.take i) := by
  unfold builtSaved
  rw [h]

/-- Claim C7 (amended): if the cleanup scan (or a delete) fails, the failure
is recorded as a `Warn scan/delete` string and the run continues: every
event of the batch is still inserted (the trace holds a put for each one),
and — provided the saved sample is JSON-serializable — the run returns 200
with `saved = fetched = ` the batch size; with a `Decimal` in the sample the
final serialization raises instead (see the counterexample). -/
theorem scan_failure_continues (env : Env) (feats : List Feature) (m : String)
    (h1 : env.fetchRaw = Except.ok feats) (h2 : feats ≠ [])
    (h3 : env.scanDel = ScanDelO.scanFail m ∨ ∃ items k, env.scanDel = ScanDelO.delFail items k m)
    (h4 : env.putFail = none)
    (h5 : ((buildFrom env 0 (fetch_latest_sismos feats)).take 5).all itemJsonOk = true) :
    (lambda_handler env).2 =
      scanDelOps env.scanDel ++ (buildFrom env 0 (fetch_latest_sismos feats)).map StoreOp.put
        ++ [StoreOp.scanAfterOp] ∧
    ∃ r, (lambda_handler env).1 = Except.ok r ∧ r.statusCode = 200 ∧
      r.body.saved = feats.length ∧ r.body.fetched = feats.length ∧
      ("Warn scan/delete: " ++ m) ∈ r.body.errors := by
  have hmain := handler_main h1 h2
  have hbs : builtSaved env (fetch_latest_sismos feats) = buildFrom env 0 (fetch_latest_sismos feats) := by
    unfold builtSaved
    rw [h4]
  have hef : effFail env (fetch_latest_sismos feats).length = none := by
    unfold effFail
    rw [h4]
  have hwarn : scanDelWarns env.scanDel = ["Warn scan/delete: " ++ m] := by
    rcases h3 with h3 | ⟨items, k, h3⟩ <;> rw [h3] <;> rfl
  have hlen : (buildFrom env 0 (fetch_latest_sismos feats)).length = feats.length := by
    rw [buildFrom_length, sismos_length]
  have hok : resultJsonOk
      ⟨(fetch_latest_sismos feats).length, (builtSaved env (fetch_latest_sismos feats)).length,
        0, scanDelWarns env.scanDel, (builtSaved env (fetch_latest_sismos feats)).take 5⟩ = true := by
    show ((builtSaved env (fetch_latest_sismos feats)).take 5).all itemJsonOk = true
    rw [hbs]
    exact h5
  rw [hmain]
  simp only [insertPhase]
  rw [hef]
  cases ha : env.afterScan with
  | ok n =>
    constructor
    · show scanDelOps env.scanDel ++ (builtSaved env (fetch_latest_sismos feats)).map StoreOp.put
          ++ [StoreOp.scanAfterOp] = _
      rw [hbs]
    · refine ⟨⟨200, ⟨(fetch_latest_sismos feats).length,
        (builtSaved env (fetch_latest_sismos feats)).length, n, scanDelWarns env.scanDel,
        (builtSaved env (fetch_latest_sismos feats)).take 5⟩⟩, ?_, rfl, ?_, ?_, ?_⟩
      · exact finish_eval_ok hok
      · show (builtSaved env (fetch_latest_sismos feats)).length = feats.length
        rw [hbs, hlen]
      · exact sismos_length
      · show _ ∈ scanDelWarns env.scanDel
        rw [hwarn]
        exact List.mem_singleton.mpr rfl
  | error m2 =>
    constructor
    · show scanDelOps env.scanDel ++ (builtSaved env (fetch_latest_sismos feats)).map StoreOp.put
          ++ [StoreOp.scanAfterOp] = _
      rw [hbs]
    · refine ⟨⟨200, ⟨(fetch_latest_sismos feats).length,
        (builtSaved env (fetch_latest_sismos feats)).length, 0,
        scanDelWarns env.scanDel ++ ["Warn scan after: " ++ m2],
        (builtSaved env (fetch_latest_sismos feats)).take 5⟩⟩, ?_, rfl, ?_, ?_, ?_⟩
      · exact finish_eval_ok hok
      · show (builtSaved env (fetch_latest_sismos feats)).length = feats.length
        rw [hbs, hlen]
      · exact sismos_length
      · show _ ∈ scanDelWarns env.scanDel ++ _
        rw [hwarn]
        exact List.mem_append_left _ (List.mem_singleton.mpr rfl)

/-- Claim C7 (counterexample): a run whose cleanup scan fails and whose
single insert succeeds, but whose saved record carries a `Decimal`
magnitude: instead of returning 200, the handler raises `TypeError` while
serializing the body. -/
theorem scan_failure_decimal_cex :
    (lambda_handler envC7).1 = Except.error tyErrMsg ∧
    envC7.scanDel = ScanDelO.scanFail "AccessDenied" ∧ envC7.putFail = none := by
  decide

/-- Claim C7 witness: a concrete scan-failed run with a serializable record,
returning 200 with the warning recorded and `saved = fetched = 1`. -/
theorem scan_failure_continues_witness :
    ∃ r, (lambda_handler envW7).1 = Except.ok r ∧ r.statusCode = 200 ∧
      r.body.saved = 1 ∧ r.body.fetched = 1 ∧
      ("Warn scan/delete: " ++ "AccessDeniedException") ∈ r.body.errors := by
  have h := scan_failure_continues envW7
    [⟨[("mag", .scalar (.str "moderate")), ("referencia", .scalar (.str "Lima"))], []⟩]
    "AccessDeniedException" rfl (by decide) (Or.inl rfl) rfl (by decide)
  exact h.2

/-- Claim C8 (amended): if the `put_item` for batch index `i` fails, the run
aborts immediately — the trace contains puts for exactly the records before
`i` and nothing afterwards; the handler then returns 500 with the partial
result (`saved = i`) provided the partial sample is JSON-serializable, and
otherwise raises `TypeError` while serializing it (see the counterexample). -/
theorem insert_failure_aborts (env : Env) (feats : List Feature) (i : Nat) (ce : Bool) (m : String)
    (h1 : env.fetchRaw = Except.ok feats)
    (h2 : env.putFail = some (i, ce, m))
    (h3 : i < feats.length) :
    (lambda_handler env).2 =
      scanDelOps env.scanDel ++
        (buildFrom env 0 ((fetch_latest_sismos feats).take i)).map StoreOp.put ∧
    (((buildFrom env 0 ((fetch_latest_sismos feats).take i)).take 5).all itemJsonOk = true →
      ∃ r, (lambda_handler env).1 = Except.ok r ∧ r.statusCode = 500 ∧ r.body.saved = i) ∧
    (((buildFrom env 0 ((fetch_latest_sismos feats).take i)).take 5).all itemJsonOk = false →
      (lambda_handler env).1 = Except.error tyErrMsg) := by
  have h2ne : feats ≠ [] := by
    intro hnil
    rw [hnil] at h3
    exact absurd h3 (by simp)
  have hmain := handler_main h1 h2ne
  have hbs : builtSaved env (fetch_latest_sismos feats) =
      buildFrom env 0 ((fetch_latest_sismos feats).take i) := effFail_builtSaved h2
  have hef : effFail env (fetch_latest_sismos feats).length = some (ce, m) := by
    unfold effFail
    rw [h2]
    show (if i < (fetch_latest_sismos feats).length then some (ce, m) else none) = some (ce, m)
    rw [if_pos (by rw [sismos_length]; exact h3)]
  have hsaved : (buildFrom env 0 ((fetch_latest_sismos feats).take i)).length = i := by
    rw [buildFrom_length, List.length_take, sismos_length]
    omega
  rw [hmain]
  simp only [insertPhase]
  rw [hef]
  refine ⟨?_, ?_, ?_⟩
  · show scanDelOps env.scanDel ++ (builtSaved env (fetch_latest_sismos feats)).map StoreOp.put = _
    rw [hbs]
  · intro hser
    have hok : resultJsonOk
        ⟨(fetch_latest_sismos feats).length, (builtSaved env (fetch_latest_sismos feats)).length,
          0, scanDelWarns env.scanDel ++ [writeErrMsg ce m, tbOf m],
          (builtSaved env (fetch_latest_sismos feats)).take 5⟩ = true := by
      show ((builtSaved env (fetch_latest_sismos feats)).take 5).all itemJsonOk = true
      rw [hbs]
      exact hser
    refine ⟨⟨500, _⟩, finish_eval_ok hok, rfl, ?_⟩
    show (builtSaved env (fetch_latest_sismos feats)).length = i
    rw [hbs, hsaved]
  · intro hser
    have hbad : resultJsonOk
        ⟨(fetch_latest_sismos feats).length, (builtSaved env (fetch_latest_sismos feats)).length,
          0, scanDelWarns env.scanDel ++ [writeErrMsg ce m, tbOf m],
          (builtSaved env (fetch_latest_sismos feats)).take 5⟩ = false := by
      show ((builtSaved env (fetch_latest_sismos feats)).take 5).all itemJsonOk = false
      rw [hbs]
      exact hser
    exact finish_eval_err hbad

/-- Claim C8 (counterexample): the second insert of a two-record batch fails
with a `ClientError` after the first record (whose magnitude is a `Decimal`)
was saved; instead of returning 500 with the partial result, the handler
raises `TypeError` while serializing the partial body inside the `except`
block. -/
theorem insert_failure_decimal_cex :
    (lambda_handler envC8).1 = Except.error tyErrMsg ∧
    envC8.putFail = some (1, true, "ProvisionedThroughputExceeded") := by
  decide

/-- Claim C8 witness: the first insert of a one-record batch fails; the
partial sample is empty, so the handler returns 500 with `saved = 0`. -/
theorem insert_failure_aborts_witness :
    ∃ r, (lambda_handler envW8).1 = Except.ok r ∧ r.statusCode = 500 ∧ r.body.saved = 0 :=
  (insert_failure_aborts envW8 [⟨[("mag", .scalar (.str "4.4"))], []⟩] 0 false "err"
    rfl rfl (by decide)).2.1 (by decide)

/-- Claim C6 (amended): the status-code mapping, with the serialization
proviso the code forces.  (i) A fetch error yields 500 with the fetch error
and traceback as the body's error list.  (ii) Zero upstream features yield
404 with `fetched = 0`, `saved = 0` and exactly one upstream-error message.
(iii) A run with a non-empty batch and no insert failure returns 200
provided its saved sample is JSON-serializable.  (iv) Conversely a 200 can
only arise from a successful fetch of a non-empty batch with no insert
failure.  (v) An insert failure yields 500 provided the partial sample is
JSON-serializable.  With a `Decimal` in the relevant sample, the handler in
cases (iii)/(v) instead raises `TypeError` (see the counterexample). -/
theorem status_code_mapping :
    (∀ (env : Env) (e : String), env.fetchRaw = Except.error e →
      (lambda_handler env).1 =
        Except.ok ⟨500, ⟨0, 0, 0, ["Error fetch: " ++ e, tbOf e], []⟩⟩) ∧
    (∀ env : Env, env.fetchRaw = Except.ok [] →
      (lambda_handler env).1 = Except.ok ⟨404, ⟨0, 0, 0, [noSismosMsg], []⟩⟩) ∧
    (∀ (env : Env) (feats : List Feature), env.fetchRaw = Except.ok feats → feats ≠ [] →
      effFail env feats.length = none →
      ((builtSaved env (fetch_latest_sismos feats)).take 5).all itemJsonOk = true →
      ∃ r, (lambda_handler env).1 = Except.ok r ∧ r.statusCode = 200) ∧
    (∀ (env : Env) (r : Response), (lambda_handler env).1 = Except.ok r → r.statusCode = 200 →
      ∃ feats, env.fetchRaw = Except.ok feats ∧ feats ≠ [] ∧ effFail env feats.length = none) ∧
    (∀ (env : Env) (feats : List Feature) (ce : Bool) (m : String),
      env.fetchRaw = Except.ok feats → effFail env feats.length = some (ce, m) →
      ((builtSaved env (fetch_latest_sismos feats)).take 5).all itemJsonOk = true →
      ∃ r, (lambda_handler env).1 = Except.ok r ∧ r.statusCode = 500) := by
  refine ⟨?_, ?_, ?_, ?_, ?_⟩
  · intro env e h
    simp [lambda_handler, h, finish, resultJsonOk]
  · intro env h
    simp [lambda_handler, h, fetch_latest_sismos, finish, resultJsonOk]
  · intro env feats h1 h2 hef hser
    have hmain := handler_main h1 h2
    have hef' : effFail env (fetch_latest_sismos feats).length = none := by
      rw [sismos_length]
      exact hef
    have hok : ∀ (n : Nat) (w2 : List String), resultJsonOk
        ⟨(fetch_latest_sismos feats).length, (builtSaved env (fetch_latest_sismos feats)).length,
          n, scanDelWarns env.scanDel ++ w2,
          (builtSaved env (fetch_latest_sismos feats)).take 5⟩ = true := fun n w2 => hser
    rw [hmain]
    simp only [insertPhase]
    rw [hef']
    cases ha : env.afterScan with
    | ok n =>
      refine ⟨⟨200, ⟨(fetch_latest_sismos feats).length,
        (builtSaved env (fetch_latest_sismos feats)).length, n, scanDelWarns env.scanDel,
        (builtSaved env (fetch_latest_sismos feats)).take 5⟩⟩, ?_, rfl⟩
      exact finish_eval_ok (by
        show ((builtSaved env (fetch_latest_sismos feats)).take 5).all itemJsonOk = true
        exact hser)
    | error m2 =>
      refine ⟨⟨200, ⟨(fetch_latest_sismos feats).length,
        (builtSaved env (fetch_latest_sismos feats)).length, 0,
        scanDelWarns env.scanDel ++ ["Warn scan after: " ++ m2],
        (builtSaved env (fetch_latest_sismos feats)).take 5⟩⟩, ?_, rfl⟩
      exact finish_eval_ok (by
        show ((builtSaved env (fetch_latest_sismos feats)).take 5).all itemJsonOk = true
        exact hser)
  · intro env r h h200
    cases hf : env.fetchRaw with
    | error e =>
      simp only [lambda_handler, hf] at h
      rw [finish_ok h] at h200
      cases h200
    | ok feats =>
      by_cases he : (fetch_latest_sismos feats).isEmpty
      · simp only [lambda_handler, hf, he, if_true] at h
        rw [finish_ok h] at h200
        cases h200
      · refine ⟨feats, rfl, ?_, ?_⟩
        · intro hnil
          rw [hnil] at he
          exact he (by rfl)
        · simp only [lambda_handler, hf, he, if_false, Bool.false_eq_true] at h
          simp only [insertPhase] at h
          cases hef : effFail env (fetch_latest_sismos feats).length with
          | some p =>
            obtain ⟨ce, m⟩ := p
            rw [hef] at h
            rw [finish_ok h] at h200
            cases h200
          | none =>
            rw [sismos_length] at hef
            exact hef
  · intro env feats ce m h1 hef hser
    have h2 : feats ≠ [] := by
      intro hnil
      have := effFail_pos hef
      rw [hnil] at this
      simp at this
    have hmain := handler_main h1 h2
    have hef' : effFail env (fetch_latest_sismos feats).length = some (ce, m) := by
      rw [sismos_length]
      exact hef
    rw [hmain]
    simp only [insertPhase]
    rw [hef']
    refine ⟨⟨500, ⟨(fetch_latest_sismos feats).length,
      (builtSaved env (fetch_latest_sismos feats)).length, 0,
      scanDelWarns env.scanDel ++ [writeErrMsg ce m, tbOf m],
      (builtSaved env (fetch_latest_sismos feats)).take 5⟩⟩, ?_, rfl⟩
    exact finish_eval_ok (by
      show ((builtSaved env (fetch_latest_sismos feats)).take 5).all itemJsonOk = true
      exact hser)

/-- Claim C6 (counterexample): a fully successful run (fetch ok, non-empty
batch, every store call ok) whose record carries a `Decimal` magnitude does
not return 200 — the handler raises `TypeError` serializing the body, so
"200 exactly on full success, always with the serialized body" fails. -/
theorem status_code_success_serialization_cex :
    envC6.fetchRaw = Except.ok [⟨[("mag", PyVal.scalar (.str "7.1"))], []⟩] ∧
    envC6.putFail = none ∧
    (lambda_handler envC6).1 = Except.error tyErrMsg := by
  decide

/-- Claim C6 witness: the empty-upstream case at a concrete environment —
status 404, `fetched = 0`, `saved = 0`, exactly one upstream-error message. -/
theorem status_code_mapping_witness :
    (lambda_handler envW6).1 = Except.ok ⟨404, ⟨0, 0, 0, [noSismosMsg], []⟩⟩ :=
  status_code_mapping.2.1 envW6 rfl

lemma digit_bounds {c : Char} (h : isDigitC c = true) : 48 ≤ c.toNat ∧ c.toNat ≤ 57 := by
  unfold isDigitC at h
  simpa [Bool.and_eq_true, decide_eq_true_eq] using h

lemma digit_not_ws {c : Char} (h : isDigitC c = true) : isWsC c = false := by
  have h1 : c ≠ ' ' := by rintro rfl; exact absurd h (by decide)
  have h2 : c ≠ '\t' := by rintro rfl; exact absurd h (by decide)
  have h3 : c ≠ '\n' := by rintro rfl; exact absurd h (by decide)
  have h4 : c ≠ '\r' := by rintro rfl; exact absurd h (by decide)
  have h5 : c ≠ '\x0b' := by rintro rfl; exact absurd h (by decide)
  have h6 : c ≠ '\x0c' := by rintro rfl; exact absurd h (by decide)
  simp [isWsC, beq_eq_false_iff_ne, h1, h2, h3, h4, h5, h6]

lemma digit_ne_space {c : Char} (h : isDigitC c = true) : c ≠ ' ' := by
  rintro rfl; exact absurd h (by decide)

lemma digit_ne_k {c : Char} (h : isDigitC c = true) : c ≠ 'k' := by
  rintro rfl; exact absurd h (by decide)

lemma digit_ne_zwsp {c : Char} (h : isDigitC c = true) : c ≠ zwspC := by
  rintro rfl; exact absurd h (by decide)

lemma digit_commaDot {c : Char} (h : isDigitC c = true) : commaDot c = c := by
  unfold commaDot
  rw [if_neg]
  rintro rfl; exact absurd h (by decide)

lemma digit_lowerC {c : Char} (h : isDigitC c = true) : lowerC c = c := by
  obtain ⟨_, h2⟩ := digit_bounds h
  unfold lowerC
  rw [if_neg]
  simp only [Bool.and_eq_true, decide_eq_true_eq, not_and]
  omega

lemma dropWhile_eq_self_of_head {p : Char → Bool} {l : List Char}
    (h : ∀ c, l.head? = some c → p c = false) : l.dropWhile p = l := by
  cases l with
  | nil => rfl
  | cons c t =>
    rw [List.dropWhile_cons, if_neg]
    simp [h c rfl]

lemma pyStrip_eq_self {l : List Char}
    (h1 : ∀ c, l.head? = some c → isWsC c = false)
    (h2 : ∀ c, l.getLast? = some c → isWsC c = false) : pyStrip l = l := by
  unfold pyStrip dropEndWhile
  rw [dropWhile_eq_self_of_head h1, dropWhile_eq_self_of_head, List.reverse_reverse]
  intro c hc
  rw [List.head?_reverse] at hc
  exact h2 c hc

lemma pyStrip_eq_self_all {l : List Char} (h : ∀ c ∈ l, isWsC c = false) : pyStrip l = l := by
  apply pyStrip_eq_self
  · intro c hc
    exact h c (List.mem_of_mem_head? hc)
  · intro c hc
    obtain ⟨hne, hceq⟩ := List.mem_getLast?_eq_getLast (Option.mem_def.mpr hc)
    exact h c (hceq ▸ List.getLast_mem hne)

lemma removeSubAux_nil (fuel : Nat) (pat : List Char) : removeSubAux fuel pat [] = [] := by
  cases fuel <;> rfl

lemma isPrefixOf_self (l : List Char) : l.isPrefixOf l = true := by
  induction l with
  | nil => rfl
  | cons c t ih => simp [List.isPrefixOf, ih]

lemma isPrefixOf_cons_false {ph c : Char} {pt rest : List Char} (h : ph ≠ c) :
    (ph :: pt).isPrefixOf (c :: rest) = false := by
  simp [List.isPrefixOf, beq_eq_false_iff_ne, h]

lemma removeSubAux_not_mem {ph : Char} {pt : List Char} :
    ∀ {l : List Char}, ph ∉ l → ∀ fuel, removeSubAux fuel (ph :: pt) l = l := by
  intro l
  induction l with
  | nil =>
    intro _ fuel
    exact removeSubAux_nil fuel _
  | cons c t ih =>
    intro h fuel
    cases fuel with
    | zero => rfl
    | succ f =>
      have hne : ph ≠ c := fun he => h (he ▸ List.mem_cons_self c t)
      simp only [removeSubAux, isPrefixOf_cons_false hne, Bool.false_eq_true, if_false]
      rw [ih (fun hm => h (List.mem_cons_of_mem c hm)) f]

lemma removeSub_not_mem {ph : Char} {pt l : List Char} (h : ph ∉ l) :
    removeSub (ph :: pt) l = l := removeSubAux_not_mem h _

lemma removeSubAux_append_self {ph : Char} {pt : List Char} :
    ∀ (body : List Char), ph ∉ body → ∀ fuel, body.length < fuel →
      removeSubAux fuel (ph :: pt) (body ++ ph :: pt) = body := by
  intro body
  induction body with
  | nil =>
    intro _ fuel hf
    cases fuel with
    | zero => omega
    | succ f =>
      simp only [List.nil_append, removeSubAux, isPrefixOf_self, if_true]
      rw [List.drop_length]
      exact removeSubAux_nil f _
  | cons c t ih =>
    intro h fuel hf
    cases fuel with
    | zero => omega
    | succ f =>
      have hne : ph ≠ c := fun he => h (he ▸ List.mem_cons_self c t)
      simp only [List.cons_append, removeSubAux, isPrefixOf_cons_false hne, Bool.false_eq_true,
        if_false, List.append_eq]
      rw [ih (fun hm => h (List.mem_cons_of_mem c hm)) f (by simp at hf; omega)]

lemma removeSub_append_self {ph : Char} {pt body : List Char} (h : ph ∉ body) :
    removeSub (ph :: pt) (body ++ ph :: pt) = body := by
  apply removeSubAux_append_self body h
  simp [List.length_append]
  omega

lemma map_commaDot_digits {l : List Char} (h : ∀ c ∈ l, isDigitC c = true) :
    l.map commaDot = l := by
  induction l with
  | nil => rfl
  | cons c t ih =>
    rw [List.map_cons, digit_commaDot (h c (List.mem_cons_self c t)),
      ih fun d hd => h d (List.mem_cons_of_mem c hd)]

lemma filter_eq_self_of_all {p : Char → Bool} {l : List Char} (h : ∀ c ∈ l, p c = true) :
    l.filter p = l := by
  induction l with
  | nil => rfl
  | cons c t ih =>
    rw [List.filter_cons, if_pos (h c (List.mem_cons_self c t)),
      ih fun d hd => h d (List.mem_cons_of_mem c hd)]

lemma takeWhile_digits_append (ip rest : List Char) (h : ∀ c ∈ ip, isDigitC c = true)
    (hr : ∀ c, rest.head? = some c → isDigitC c = false) :
    (ip ++ rest).takeWhile isDigitC = ip ∧ (ip ++ rest).dropWhile isDigitC = rest := by
  induction ip with
  | nil =>
    simp only [List.nil_append]
    cases rest with
    | nil => exact ⟨rfl, rfl⟩
    | cons c t =>
      constructor
      · rw [List.takeWhile_cons, if_neg]
        simp [hr c rfl]
      · rw [List.dropWhile_cons, if_neg]
        simp [hr c rfl]
  | cons a ip ih =>
    have ha : isDigitC a = true := h a (List.mem_cons_self a ip)
    obtain ⟨ih1, ih2⟩ := ih fun d hd => h d (List.mem_cons_of_mem a hd)
    constructor
    · rw [List.cons_append, List.takeWhile_cons, if_pos (by simp [ha]), ih1]
    · rw [List.cons_append, List.dropWhile_cons, if_pos (by simp [ha]), ih2]

lemma takeWhile_digits_all (l : List Char) (h : ∀ c ∈ l, isDigitC c = true) :
    l.takeWhile isDigitC = l ∧ l.dropWhile isDigitC = [] := by
  have := takeWhile_digits_append l [] h (by intro c hc; simp at hc)
  simpa using this

lemma nanTail_head_ne {c : Char} {X : List Char} (h : c ≠ 'n') : nanTail (c :: X) = false := by
  cases X with
  | nil => rfl
  | cons b Y =>
    cases Y with
    | nil => rfl
    | cons d r => simp [nanTail, beq_eq_false_iff_ne, h]

lemma isNanPat_head_ne {c : Char} {X : List Char} (hn : c ≠ 'n') (hs : c ≠ 's') :
    isNanPat (c :: X) = false := by
  simp [isNanPat, nanTail_head_ne hn, beq_eq_false_iff_ne, hs]

lemma parseBody_digit_head {neg : Bool} {c : Char} {rest : List Char} (h : isDigitC c = true) :
    parseBody neg (c :: rest) = (parseNumD (c :: rest)).map (negDec neg) := by
  have hlc : lowerC c = c := digit_lowerC h
  have hni : c ≠ 'i' := by rintro rfl; exact absurd h (by decide)
  have hnn : c ≠ 'n' := by rintro rfl; exact absurd h (by decide)
  have hns : c ≠ 's' := by rintro rfl; exact absurd h (by decide)
  have hlow : lowerAll (c :: rest) = c :: lowerAll rest := by
    simp [lowerAll, hlc]
  have hinf : (lowerAll (c :: rest) == "inf".data) = false := by
    rw [hlow]
    apply beq_eq_false_iff_ne.mpr
    intro he
    rw [show "inf".data = ['i', 'n', 'f'] from rfl] at he
    exact hni (List.cons.inj he).1
  have hinfy : (lowerAll (c :: rest) == "infinity".data) = false := by
    rw [hlow]
    apply beq_eq_false_iff_ne.mpr
    intro he
    rw [show "infinity".data = ['i', 'n', 'f', 'i', 'n', 'i', 't', 'y'] from rfl] at he
    exact hni (List.cons.inj he).1
  have hnan : isNanPat (lowerAll (c :: rest)) = false := by
    rw [hlow]
    exact isNanPat_head_ne hnn hns
  simp only [parseBody, hinf, hinfy, hnan, Bool.or_false, Bool.false_eq_true, if_false]

lemma parseNumD_canonical {ip fp : List Char} (hip : ip ≠ []) (h1 : ∀ c ∈ ip, isDigitC c = true)
    (h2 : ∀ c ∈ fp, isDigitC c = true) :
    parseNumD (ip ++ (if fp.isEmpty then [] else '.' :: fp)) =
      some (Dec.fin ((digVal ip * 10 ^ fp.length + digVal fp : Nat) : Int) (-(fp.length : Int))) := by
  have hipe : ip.isEmpty = false := by
    cases ip with
    | nil => exact absurd rfl hip
    | cons a t => rfl
  cases hfp : fp.isEmpty with
  | true =>
    have hfpnil : fp = [] := by
      cases fp with
      | nil => rfl
      | cons a t => cases hfp
    subst hfpnil
    obtain ⟨ht, hd⟩ := takeWhile_digits_all ip h1
    simp only [List.isEmpty_nil, if_true, List.append_nil, parseNumD, ht, hd]
    show (if ip.isEmpty = true then none
        else (parseExpPart []).map fun e => Dec.fin ((digVal ip : Nat) : Int) e) = _
    rw [hipe]
    show (parseExpPart []).map (fun e => Dec.fin ((digVal ip : Nat) : Int) e) = _
    show some (Dec.fin ((digVal ip : Nat) : Int) 0) = _
    norm_num [digVal]
  | false =>
    obtain ⟨ht, hd⟩ := takeWhile_digits_append ip ('.' :: fp) h1
      (by intro c hc
          have hc' : c = '.' := by simpa using hc.symm
          subst hc'
          decide)
    obtain ⟨ht2, hd2⟩ := takeWhile_digits_all fp h2
    simp only [hfp, Bool.false_eq_true, if_false]
    simp only [parseNumD, ht, hd]
    show (if (ip.isEmpty && (fp.takeWhile isDigitC).isEmpty) = true then none
        else (parseExpPart (fp.dropWhile isDigitC)).map fun e =>
          Dec.fin ((digVal ip * 10 ^ (fp.takeWhile isDigitC).length +
            digVal (fp.takeWhile isDigitC) : Nat) : Int)
            (e - ((fp.takeWhile isDigitC).length : Int))) = _
    rw [ht2, hd2, hipe]
    show (parseExpPart []).map (fun e =>
      Dec.fin ((digVal ip * 10 ^ fp.length + digVal fp : Nat) : Int) (e - (fp.length : Int))) = _
    show some (Dec.fin ((digVal ip * 10 ^ fp.length + digVal fp : Nat) : Int)
      (0 - (fp.length : Int))) = _
    norm_num

lemma decimalParse_canonical (neg : Bool) (ip fp : List Char) (hip : ip ≠ [])
    (h1 : ∀ c ∈ ip, isDigitC c = true) (h2 : ∀ c ∈ fp, isDigitC c = true) :
    decimalParse (String.mk
      ((if neg then ['-'] else []) ++ ip ++ (if fp.isEmpty then [] else '.' :: fp))) =
      some (Dec.fin
        ((if neg then -1 else 1) * ((digVal ip * 10 ^ fp.length + digVal fp : Nat) : Int))
        (-(fp.length : Int))) := by
  obtain ⟨a, ip', rfl⟩ : ∃ a ip', ip = a :: ip' := by
    cases ip with
    | nil => exact absurd rfl hip
    | cons a t => exact ⟨a, t, rfl⟩
  have ha : isDigitC a = true := h1 a (List.mem_cons_self a ip')
  have hdot : ∀ c ∈ (if fp.isEmpty then ([] : List Char) else '.' :: fp), isWsC c = false := by
    intro c hc
    by_cases hfp : fp.isEmpty
    · rw [if_pos hfp] at hc; cases hc
    · rw [if_neg hfp] at hc
      rcases List.mem_cons.mp hc with rfl | hc
      · decide
      · exact digit_not_ws (h2 c hc)
  have hmid : ∀ c ∈ (a :: ip') ++ (if fp.isEmpty then [] else '.' :: fp), isWsC c = false := by
    intro c hc
    rcases List.mem_append.mp hc with hc | hc
    · exact digit_not_ws (h1 c hc)
    · exact hdot c hc
  cases neg with
  | true =>
    have hws : ∀ c ∈ ['-'] ++ (a :: ip') ++ (if fp.isEmpty then [] else '.' :: fp),
        isWsC c = false := by
      intro c hc
      rcases List.mem_append.mp hc with hc | hc
      · rcases List.mem_append.mp hc with hc | hc
        · simp at hc; subst hc; decide
        · exact digit_not_ws (h1 c hc)
      · exact hdot c hc
    have hstrip := pyStrip_eq_self_all hws
    show decimalParse (String.mk
        (['-'] ++ (a :: ip') ++ (if fp.isEmpty then [] else '.' :: fp))) = _
    unfold decimalParse
    rw [show (String.mk (['-'] ++ (a :: ip') ++ (if fp.isEmpty then [] else '.' :: fp))).data
        = ['-'] ++ (a :: ip') ++ (if fp.isEmpty then [] else '.' :: fp) from rfl]
    rw [hstrip]
    rw [show ['-'] ++ (a :: ip') ++ (if fp.isEmpty then [] else '.' :: fp)
        = '-' :: ((a :: ip') ++ (if fp.isEmpty then [] else '.' :: fp)) from rfl]
    show parseBody true ((a :: ip') ++ (if fp.isEmpty then [] else '.' :: fp)) = _
    rw [List.cons_append, parseBody_digit_head ha, ← List.cons_append,
      parseNumD_canonical hip h1 h2]
    show some (negDec true (Dec.fin ((digVal (a :: ip') * 10 ^ fp.length + digVal fp : Nat) : Int)
      (-(fp.length : Int)))) = _
    simp [negDec, neg_one_mul]
  | false =>
    have hstrip := pyStrip_eq_self_all hmid
    have hne1 : (a == '-') = false :=
      beq_eq_false_iff_ne.mpr (by rintro rfl; exact absurd ha (by decide))
    have hne2 : (a == '+') = false :=
      beq_eq_false_iff_ne.mpr (by rintro rfl; exact absurd ha (by decide))
    show decimalParse (String.mk
        ([] ++ (a :: ip') ++ (if fp.isEmpty then [] else '.' :: fp))) = _
    unfold decimalParse
    rw [show (String.mk ([] ++ (a :: ip') ++ (if fp.isEmpty then [] else '.' :: fp))).data
        = (a :: ip') ++ (if fp.isEmpty then [] else '.' :: fp) from rfl]
    rw [hstrip]
    rw [List.cons_append]
    show (if (a == '-') = true then
        parseBody true (ip' ++ (if fp.isEmpty then [] else '.' :: fp))
      else if (a == '+') = true then
        parseBody false (ip' ++ (if fp.isEmpty then [] else '.' :: fp))
      else parseBody false (a :: (ip' ++ (if fp.isEmpty then [] else '.' :: fp)))) = _
    rw [hne1, hne2]
    simp only [Bool.false_eq_true, if_false]
    rw [parseBody_digit_head ha, ← List.cons_append, parseNumD_canonical hip h1 h2]
    show some (negDec false (Dec.fin ((digVal (a :: ip') * 10 ^ fp.length + digVal fp : Nat) : Int)
      (-(fp.length : Int)))) = _
    simp [negDec]

lemma cleanNumStr_numForm (neg : Bool) (ip fp : List Char) (sep : Char) (unit : String)
    (hip : ip ≠ []) (h1 : ∀ c ∈ ip, isDigitC c = true) (h2 : ∀ c ∈ fp, isDigitC c = true)
    (hsep : sep = ',' ∨ sep = '.') (hu : unit = "" ∨ unit = "km" ∨ unit = " km") :
    cleanNumStr (numForm neg ip fp sep unit) =
      String.mk ((if neg then ['-'] else []) ++ ip ++ (if fp.isEmpty then [] else '.' :: fp)) := by
  obtain ⟨a, ip', rfl⟩ : ∃ a ip', ip = a :: ip' := by
    cases ip with
    | nil => exact absurd rfl hip
    | cons a t => exact ⟨a, t, rfl⟩
  have hmem : ∀ c ∈ (if neg then ['-'] else []) ++ (a :: ip') ++
      (if fp.isEmpty then [] else sep :: fp), c = '-' ∨ c ∈ a :: ip' ∨ c = sep ∨ c ∈ fp := by
    intro c hc
    rcases List.mem_append.mp hc with hc | hc
    · rcases List.mem_append.mp hc with hc | hc
      · cases neg with
        | true => simp at hc; exact Or.inl hc
        | false => simp at hc
      · exact Or.inr (Or.inl hc)
    · by_cases hfp : fp.isEmpty
      · rw [if_pos hfp] at hc; cases hc
      · rw [if_neg hfp] at hc
        rcases List.mem_cons.mp hc with rfl | hc
        · exact Or.inr (Or.inr (Or.inl rfl))
        · exact Or.inr (Or.inr (Or.inr hc))
  have hspace : ' ' ∉ (if neg then ['-'] else []) ++ (a :: ip') ++
      (if fp.isEmpty then [] else sep :: fp) := by
    intro hc
    rcases hmem ' ' hc with hc | hc | hc | hc
    · cases hc
    · exact absurd (h1 ' ' hc) (by decide)
    · rcases hsep with rfl | rfl <;> cases hc
    · exact absurd (h2 ' ' hc) (by decide)
  have hk : 'k' ∉ (if neg then ['-'] else []) ++ (a :: ip') ++
      (if fp.isEmpty then [] else sep :: fp) := by
    intro hc
    rcases hmem 'k' hc with hc | hc | hc | hc
    · cases hc
    · exact absurd (h1 'k' hc) (by decide)
    · rcases hsep with rfl | rfl <;> cases hc
    · exact absurd (h2 'k' hc) (by decide)
  have hwsbody : ∀ c ∈ (if neg then ['-'] else []) ++ (a :: ip') ++
      (if fp.isEmpty then [] else sep :: fp), isWsC c = false := by
    intro c hc
    rcases hmem c hc with rfl | hc | rfl | hc
    · decide
    · exact digit_not_ws (h1 c hc)
    · rcases hsep with rfl | rfl <;> decide
    · exact digit_not_ws (h2 c hc)
  have hmap : ((if neg then ['-'] else []) ++ (a :: ip') ++
      (if fp.isEmpty then [] else sep :: fp)).map commaDot =
      (if neg then ['-'] else []) ++ (a :: ip') ++ (if fp.isEmpty then [] else '.' :: fp) := by
    rw [List.map_append, List.map_append, map_commaDot_digits h1]
    congr 1
    · congr 1
      cases neg with
      | true => rfl
      | false => rfl
    · by_cases hfp : fp.isEmpty
      · rw [if_pos hfp, if_pos hfp]; rfl
      · rw [if_neg hfp, if_neg hfp, List.map_cons, map_commaDot_digits h2]
        rcases hsep with rfl | rfl <;> rfl
  have hfilter : (((if neg then ['-'] else []) ++ (a :: ip') ++
      (if fp.isEmpty then [] else '.' :: fp)).filter fun c => !(c == zwspC)) =
      (if neg then ['-'] else []) ++ (a :: ip') ++ (if fp.isEmpty then [] else '.' :: fp) := by
    apply filter_eq_self_of_all
    intro c hc
    have : c = '-' ∨ c ∈ a :: ip' ∨ c = '.' ∨ c ∈ fp := by
      rcases List.mem_append.mp hc with hc | hc
      · rcases List.mem_append.mp hc with hc | hc
        · cases neg with
          | true => simp at hc; exact Or.inl hc
          | false => simp at hc
        · exact Or.inr (Or.inl hc)
      · by_cases hfp : fp.isEmpty
        · rw [if_pos hfp] at hc; cases hc
        · rw [if_neg hfp] at hc
          rcases List.mem_cons.mp hc with rfl | hc
          · exact Or.inr (Or.inr (Or.inl rfl))
          · exact Or.inr (Or.inr (Or.inr hc))
    have hne : c ≠ zwspC := by
      rcases this with rfl | hd | rfl | hd
      · decide
      · exact digit_ne_zwsp (h1 c hd)
      · decide
      · exact digit_ne_zwsp (h2 c hd)
    simp [beq_eq_false_iff_ne.mpr hne]
  rcases hu with rfl | rfl | rfl
  · simp only [cleanNumStr, numForm]
    rw [List.append_nil, pyStrip_eq_self_all hwsbody, removeSub_not_mem hspace,
      removeSub_not_mem hk, hmap, hfilter]
  · have hspace2 : ' ' ∉ ((if neg then ['-'] else []) ++ (a :: ip') ++
        (if fp.isEmpty then [] else sep :: fp)) ++ ['k', 'm'] := by
      intro hc
      rcases List.mem_append.mp hc with hc | hc
      · exact hspace hc
      · rcases List.mem_cons.mp hc with hc | hc
        · cases hc
        · simp at hc
    have hws2 : ∀ c ∈ ((if neg then ['-'] else []) ++ (a :: ip') ++
        (if fp.isEmpty then [] else sep :: fp)) ++ ['k', 'm'], isWsC c = false := by
      intro c hc
      rcases List.mem_append.mp hc with hc | hc
      · exact hwsbody c hc
      · rcases List.mem_cons.mp hc with rfl | hc
        · decide
        · simp at hc; subst hc; decide
    simp only [cleanNumStr, numForm]
    rw [pyStrip_eq_self_all hws2, removeSub_not_mem hspace2, removeSub_append_self hk, hmap,
      hfilter]
  · have hhead : ∀ c, (((if neg then ['-'] else []) ++ (a :: ip') ++
        (if fp.isEmpty then [] else sep :: fp)) ++ [' ', 'k', 'm']).head? = some c →
        isWsC c = false := by
      intro c hc
      cases neg with
      | true =>
        have : c = '-' := by simpa using hc.symm
        subst this; decide
      | false =>
        have hca : c = a := by simpa using hc.symm
        rw [hca]
        exact digit_not_ws (h1 a (List.mem_cons_self a ip'))
    have hlast : ∀ c, (((if neg then ['-'] else []) ++ (a :: ip') ++
        (if fp.isEmpty then [] else sep :: fp)) ++ [' ', 'k', 'm']).getLast? = some c →
        isWsC c = false := by
      intro c hc
      rw [show ([' ', 'k', 'm'] : List Char) = ' ' :: ['k', 'm'] from rfl,
        List.getLast?_append_cons] at hc
      have : c = 'm' := by simpa using hc.symm
      subst this; decide
    have hstrip := pyStrip_eq_self hhead hlast
    simp only [cleanNumStr, numForm]
    rw [hstrip, removeSub_append_self hspace, removeSub_not_mem hk, hmap, hfilter]

/-- Claim C4 (counterexample): on the non-numeric string `"x,y"` the code
does not return the input merely whitespace/invisible-trimmed — the cleaning
also replaced the comma with a dot, so the fallback string is `"x.y"`. -/
theorem to_decimal_safe_comma_cex :
    to_decimal_safe (PyVal.scalar (.str "x,y")) = PyVal.scalar (.str "x.y") ∧
    "x.y" ≠ "x,y" := by
  decide

/-- Claim C4 (amended): for every decimal-parseable string in the shape
`[-]digits[(,|.)digits][ ]km`, `to_decimal_safe` returns a `Decimal` whose
value equals the string's positional numeric value; for every string whose
cleaned form does not parse as a decimal, it returns the *cleaned* string —
whitespace-stripped, with every `" km"`/`"km"` occurrence removed, commas
replaced by dots and zero-width spaces removed — not the original string. -/
theorem to_decimal_safe_round_trip :
    (∀ (neg : Bool) (ip fp : List Char) (sep : Char) (unit : String),
      ip ≠ [] → (∀ c ∈ ip, isDigitC c = true) → (∀ c ∈ fp, isDigitC c = true) →
      (sep = ',' ∨ sep = '.') → (unit = "" ∨ unit = "km" ∨ unit = " km") →
      ∃ d, to_decimal_safe (PyVal.scalar (.str (numForm neg ip fp sep unit))) =
          PyVal.scalar (.dec d) ∧ decVal d = numFormVal neg ip fp) ∧
    (∀ s : String, decimalParse (cleanNumStr s) = none →
      to_decimal_safe (PyVal.scalar (.str s)) = PyVal.scalar (.str (cleanNumStr s))) := by
  constructor
  · intro neg ip fp sep unit hip h1 h2 hsep hu
    refine ⟨Dec.fin
      ((if neg then -1 else 1) * ((digVal ip * 10 ^ fp.length + digVal fp : Nat) : Int))
      (-(fp.length : Int)), ?_, ?_⟩
    · simp only [to_decimal_safe]
      rw [cleanNumStr_numForm neg ip fp sep unit hip h1 h2 hsep hu,
        decimalParse_canonical neg ip fp hip h1 h2]
    · unfold decVal numFormVal
      have h10 : (10 : ℚ) ^ fp.length ≠ 0 := by positivity
      cases neg with
      | true =>
        show ((-1 * ((digVal ip * 10 ^ fp.length + digVal fp : Nat) : Int) : Int) : ℚ) *
            (10 : ℚ) ^ (-(fp.length : Int)) =
          -1 * ((digVal ip : ℚ) + (digVal fp : ℚ) / (10 : ℚ) ^ fp.length)
        rw [zpow_neg, zpow_natCast]
        push_cast
        field_simp
      | false =>
        show ((1 * ((digVal ip * 10 ^ fp.length + digVal fp : Nat) : Int) : Int) : ℚ) *
            (10 : ℚ) ^ (-(fp.length : Int)) =
          1 * ((digVal ip : ℚ) + (digVal fp : ℚ) / (10 : ℚ) ^ fp.length)
        rw [zpow_neg, zpow_natCast]
        push_cast
        field_simp
  · intro s h
    simp [to_decimal_safe, h]

/-- Claim C4 witness: the numeric half at `"-12,5 km"` (value `-12.5`) and
the fallback half at `"abc"`. -/
theorem to_decimal_safe_round_trip_witness :
    (∃ d, to_decimal_safe (PyVal.scalar (.str (numForm true ['1', '2'] ['5'] ',' " km"))) =
        PyVal.scalar (.dec d) ∧ decVal d = numFormVal true ['1', '2'] ['5']) ∧
    to_decimal_safe (PyVal.scalar (.str "abc")) = PyVal.scalar (.str (cleanNumStr "abc")) :=
  ⟨to_decimal_safe_round_trip.1 true ['1', '2'] ['5'] ',' " km" (by decide) (by decide)
      (by decide) (Or.inl rfl) (Or.inr (Or.inr rfl)),
   to_decimal_safe_round_trip.2 "abc" (by decide)⟩
